import Mathlib

/-!
Shallow embedding of the two chat front ends of the Multi-Tool-Agent
repository.

The repository contains two near-identical single-page chat UIs:

* the query variant, `Marketing Assistance Agent/agent-frontend/src/App.js`,
  which keeps a `chatHistory` list of objects with fields `sender` and
  `text`, mirrors it to the browser-local key `chatHistory` on every
  change, and talks to a single `query` endpoint;

* the unnamed variant, `src/unnamed/part_000`, which keeps a `chat` list of
  objects with fields `role` and `text`, has a `loading` flag that disables
  both buttons, and talks to `start_chat` and `follow_up` endpoints.

Pure functions below are translated directly from the handlers of those
files; the asynchronous fetch is made explicit by passing the outcome of
the request as an argument, and the browser-local store is made explicit
as an optional string.
-/

namespace MultiToolAgent

/-- Sender tag of a chat message in the query variant: the string literals
`"user"` and `"bot"` written at lines 29, 37 and 42 of App.js. -/
inductive Sender where
  | user
  | bot
deriving DecidableEq

/-- ChatMessage of the query variant: the object literals with fields
`sender` and `text` built in `handleSubmit` of App.js. -/
structure QMsg where
  sender : Sender
  text : String
deriving DecidableEq

/-- Role tag of a chat message in the unnamed variant: the string literals
`'user'` and `'bot'` written at lines 21 and 36 of part_000. -/
inductive Role where
  | user
  | bot
deriving DecidableEq

/-- Chat message of the unnamed variant: the object literals with fields
`role` and `text` built in `handleStartChat` and `handleFollowUp`. -/
structure UMsg where
  role : Role
  text : String
deriving DecidableEq

/-- Response body of the `query` endpoint as consumed by App.js line 35:
possibly-absent string fields `reply` and `insight`. -/
structure QueryResponse where
  reply : Option String
  insight : Option String
deriving DecidableEq

/-- Outcome of the awaited `axios.post` in `handleSubmit`: either a parsed
response body, or a rejection that lands in the `catch` branch. -/
inductive FetchResult where
  | success (data : QueryResponse)
  | failure
deriving DecidableEq

/-- Outcome of an awaited `fetch` plus `response.json()` in part_000:
either the value of the single documented field of the response, or a
rejection.  part_000 has no `catch`, so a rejection aborts the handler. -/
inductive Outcome (α : Type) where
  | ok (val : α)
  | err
deriving DecidableEq

/-- Whitespace in the sense of the JavaScript `String.prototype.trim`
used by the blank-input guards of both variants. -/
def isJsWhitespace (c : Char) : Bool :=
  c = ' ' || c = '\t' || c = '\n' || c = '\r' ||
  c.toNat = 11 || c.toNat = 12 || c.toNat = 0xa0 || c.toNat = 0x1680 ||
  (0x2000 ≤ c.toNat && c.toNat ≤ 0x200a) ||
  c.toNat = 0x2028 || c.toNat = 0x2029 || c.toNat = 0x202f ||
  c.toNat = 0x205f || c.toNat = 0x3000 || c.toNat = 0xfeff

/-- Models the guards of the form `if (!s.trim()) return;`: `s.trim()` is
the empty string exactly when every character of `s` is whitespace. -/
def jsTrimEmpty (s : String) : Bool :=
  s.data.all isJsWhitespace

/-- Lower-case hexadecimal digit character for a value below 16. -/
def hexDigitChar (n : Nat) : Char :=
  if n < 10 then Char.ofNat (48 + n) else Char.ofNat (87 + n)

/-- JSON escaping of one character of a string value, as performed by the
`JSON.stringify` calls of App.js: quote and backslash get a backslash
escape, the usual control characters get their short escapes, remaining
control characters get a `u00XX` escape, and everything else is emitted
verbatim. -/
def escChar (c : Char) : List Char :=
  if c = '"' then ['\\', '"']
  else if c = '\\' then ['\\', '\\']
  else if c = '\n' then ['\\', 'n']
  else if c = '\t' then ['\\', 't']
  else if c = '\r' then ['\\', 'r']
  else if c.toNat = 8 then ['\\', 'b']
  else if c.toNat = 12 then ['\\', 'f']
  else if c.toNat < 32 then
    ['\\', 'u', '0', '0', hexDigitChar (c.toNat / 16), hexDigitChar (c.toNat % 16)]
  else [c]

/-- JSON escaping of a whole string value. -/
def escStr : List Char → List Char
  | [] => []
  | c :: cs => escChar c ++ escStr cs

/-- Models `JSON.stringify(res.data, null, 2)` of App.js line 35 on the
modelled response shape: the two-space pretty printing of the body. -/
def prettyJson (r : QueryResponse) : String :=
  match r.reply, r.insight with
  | none, none => "\x7b\x7d"
  | some a, none =>
      "\x7b\n  \"reply\": \"" ++ String.mk (escStr a.data) ++ "\"\n\x7d"
  | none, some b =>
      "\x7b\n  \"insight\": \"" ++ String.mk (escStr b.data) ++ "\"\n\x7d"
  | some a, some b =>
      "\x7b\n  \"reply\": \"" ++ String.mk (escStr a.data) ++
        "\",\n  \"insight\": \"" ++ String.mk (escStr b.data) ++ "\"\n\x7d"

/-- JavaScript truthiness of an optional string field: an absent field is
`undefined` and falsy, and the empty string is falsy. -/
def truthyStr : Option String → Bool
  | none => false
  | some s => s != ""

/-- App.js line 35: `res.data.reply || res.data.insight ||
JSON.stringify(res.data, null, 2)`. -/
def rawReply (r : QueryResponse) : String :=
  if truthyStr r.reply then r.reply.getD ""
  else if truthyStr r.insight then r.insight.getD ""
  else prettyJson r

/-- In-memory state of the query variant that `handleSubmit` touches: the
`query` input and the `chatHistory` list. -/
structure AppState where
  query : String
  chatHistory : List QMsg
deriving DecidableEq

/-- The fixed fallback text appended by the `catch` branch of
`handleSubmit` in App.js. -/
def fallbackText : String := "Something went wrong."

/-- `handleSubmit` of App.js lines 25-45: return early on a blank query;
otherwise append the user message, clear the input, and append one bot
message whose text depends on the outcome of the posted request. -/
def handleSubmit (s : AppState) (r : FetchResult) : AppState :=
  if jsTrimEmpty s.query then s
  else
    let withUser := s.chatHistory ++ [⟨Sender.user, s.query⟩]
    match r with
    | FetchResult.success d => ⟨"", withUser ++ [⟨Sender.bot, rawReply d⟩]⟩
    | FetchResult.failure => ⟨"", withUser ++ [⟨Sender.bot, fallbackText⟩]⟩

/-- The body field of the POST issued by `handleSubmit`, `none` when the
blank guard returns before the request is made. -/
def submitRequest (s : AppState) : Option String :=
  if jsTrimEmpty s.query then none else some s.query

/-- Sender tag as it appears in the serialized JSON. -/
def senderStr : Sender → String
  | Sender.user => "user"
  | Sender.bot => "bot"

/-- Serialization of one chat message object, as `JSON.stringify` emits it
for the object literals of App.js: keys in insertion order `sender`,
`text`, string values escaped. -/
def msgChars (m : QMsg) : List Char :=
  "\x7b\"sender\":\"".data ++
    (escStr (senderStr m.sender).data ++
      ('"' :: (",\"text\":\"".data ++
        (escStr m.text.data ++ ('"' :: '\x7d' :: [])))))

/-- Comma-separated serialization of the elements of the message array. -/
def msgsChars : List QMsg → List Char
  | [] => []
  | [m] => msgChars m
  | m :: ms => msgChars m ++ ',' :: msgsChars ms

/-- `JSON.stringify(chatHistory)` as written to the browser-local key by
the save effect of App.js lines 20-23. -/
def chatHistoryJson (l : List QMsg) : String :=
  String.mk ('[' :: msgsChars l ++ [']'])

/-- Value of a hexadecimal digit character. -/
def hexVal (c : Char) : Option Nat :=
  if '0' ≤ c ∧ c ≤ '9' then some (c.toNat - 48)
  else if 'a' ≤ c ∧ c ≤ 'f' then some (c.toNat - 87)
  else if 'A' ≤ c ∧ c ≤ 'F' then some (c.toNat - 55)
  else none

/-- Parses the body of a JSON string up to and including its closing
quote, undoing the escapes; returns the decoded characters and the rest
of the input.  This is the string case of the `JSON.parse` used by the
load effect of App.js. -/
def parseEscStr : List Char → Option (List Char × List Char)
  | [] => none
  | c :: rest =>
    if c = '"' then some ([], rest)
    else if c = '\\' then
      match rest with
      | [] => none
      | e :: rest2 =>
        if e = '"' then Option.map (fun p => ('"' :: p.1, p.2)) (parseEscStr rest2)
        else if e = '\\' then Option.map (fun p => ('\\' :: p.1, p.2)) (parseEscStr rest2)
        else if e = '/' then Option.map (fun p => ('/' :: p.1, p.2)) (parseEscStr rest2)
        else if e = 'n' then Option.map (fun p => ('\n' :: p.1, p.2)) (parseEscStr rest2)
        else if e = 't' then Option.map (fun p => ('\t' :: p.1, p.2)) (parseEscStr rest2)
        else if e = 'r' then Option.map (fun p => ('\r' :: p.1, p.2)) (parseEscStr rest2)
        else if e = 'b' then Option.map (fun p => (Char.ofNat 8 :: p.1, p.2)) (parseEscStr rest2)
        else if e = 'f' then Option.map (fun p => (Char.ofNat 12 :: p.1, p.2)) (parseEscStr rest2)
        else if e = 'u' then
          match rest2 with
          | a :: b :: c2 :: d :: rest3 =>
            match hexVal a, hexVal b, hexVal c2, hexVal d with
            | some x1, some x2, some x3, some x4 =>
                Option.map
                  (fun p => (Char.ofNat (((x1 * 16 + x2) * 16 + x3) * 16 + x4) :: p.1, p.2))
                  (parseEscStr rest3)
            | _, _, _, _ => none
          | _ => none
        else none
    else Option.map (fun p => (c :: p.1, p.2)) (parseEscStr rest)

/-- Consumes an exact literal prefix of the input. -/
def dropLit : List Char → List Char → Option (List Char)
  | [], cs => some cs
  | _ :: _, [] => none
  | l :: ls, c :: cs => if c = l then dropLit ls cs else none

/-- Parses one serialized chat message object back into a `QMsg`. -/
def parseMsg (cs : List Char) : Option (QMsg × List Char) :=
  match dropLit "\x7b\"sender\":\"".data cs with
  | none => none
  | some r1 =>
    match parseEscStr r1 with
    | none => none
    | some (sstr, r2) =>
      match (if sstr = "user".data then some Sender.user
             else if sstr = "bot".data then some Sender.bot else none) with
      | none => none
      | some snd =>
        match dropLit ",\"text\":\"".data r2 with
        | none => none
        | some r3 =>
          match parseEscStr r3 with
          | none => none
          | some (tstr, r4) =>
            match r4 with
            | [] => none
            | c :: r5 =>
              if c = '\x7d' then some (⟨snd, String.mk tstr⟩, r5) else none

/-- Parses the comma-separated elements of a nonempty message array up to
and including the closing bracket; the fuel argument bounds the
recursion. -/
def parseItems : Nat → List Char → Option (List QMsg × List Char)
  | 0, _ => none
  | Nat.succ fuel, cs =>
    match parseMsg cs with
    | none => none
    | some (m, rest) =>
      match rest with
      | [] => none
      | c :: rest2 =>
        if c = ',' then
          match parseItems fuel rest2 with
          | some (ms, r) => some (m :: ms, r)
          | none => none
        else if c = ']' then some ([m], rest2)
        else none

/-- Models `JSON.parse` on a stored chatHistory string: the whole input
must be one array of message objects. -/
def parseChatHistory (s : String) : Option (List QMsg) :=
  match s.data with
  | [] => none
  | c :: cs =>
    if c = '[' then
      if cs = [']'] then some []
      else
        match parseItems (cs.length + 1) cs with
        | some (ms, []) => some ms
        | _ => none
    else none

/-- The save effect of App.js lines 20-23: `localStorage.setItem`
overwrites the single key with the serialization of the whole list,
whatever the key held before. -/
def saveChatHistory (t : List QMsg) (_stored : Option String) : Option String :=
  some (chatHistoryJson t)

/-- The load effect of App.js lines 12-17: an absent or empty stored
value is falsy and leaves the initial empty list; otherwise the stored
string is parsed.  A `JSON.parse` exception would abort the effect and
also leave the initial empty list. -/
def loadChatHistory (stored : Option String) : List QMsg :=
  match stored with
  | none => []
  | some s => if s = "" then [] else (parseChatHistory s).getD []

/-- State of the query variant together with the browser-local store. -/
structure PersistedApp where
  query : String
  chatHistory : List QMsg
  stored : Option String
deriving DecidableEq

/-- `handleClear` of App.js lines 47-50: empty the list and remove the
stored key. -/
def handleClear (p : PersistedApp) : PersistedApp :=
  ⟨p.query, [], none⟩

/-- The save effect viewed on the combined state: it fires after any
render in which `chatHistory` was set, and mirrors the list wholesale. -/
def saveEffect (p : PersistedApp) : PersistedApp :=
  { p with stored := some (chatHistoryJson p.chatHistory) }

/-- One whole submit interaction: `handleSubmit` runs, and whenever it
set `chatHistory` (every non-blank submission does) the save effect fires
on the re-render. -/
def submitCycle (p : PersistedApp) (r : FetchResult) : PersistedApp :=
  if jsTrimEmpty p.query then p
  else
    let a := handleSubmit ⟨p.query, p.chatHistory⟩ r
    saveEffect ⟨a.query, a.chatHistory, p.stored⟩

/-- One whole clear interaction: `handleClear` runs, and the save effect
fires on the re-render caused by `setChatHistory([])`. -/
def clearCycle (p : PersistedApp) : PersistedApp :=
  saveEffect (handleClear p)

/-- In-memory state of the unnamed variant: the `company` input, the
`chat` list, the `loading` flag and the `followUp` input. -/
structure UState where
  company : String
  chat : List UMsg
  loading : Bool
  followUp : String
deriving DecidableEq

/-- `handleStartChat` of part_000 lines 10-23: return early on a blank
company; on a successful response, replace the chat with the single
insight message and drop the loading flag.  There is no `catch`: a
rejected await aborts the handler after `setLoading(true)` has run. -/
def handleStartChat (s : UState) (r : Outcome String) : UState :=
  if jsTrimEmpty s.company then s
  else
    match r with
    | Outcome.ok ins => { s with loading := false, chat := [⟨Role.bot, ins⟩] }
    | Outcome.err => { s with loading := true }

/-- `handleFollowUp` of part_000 lines 25-39: return early on a blank
question; on a successful response, append the user message and the bot
reply together and clear the input.  There is no `catch`: a rejected
await aborts the handler after `setLoading(true)` has run. -/
def handleFollowUp (s : UState) (r : Outcome String) : UState :=
  if jsTrimEmpty s.followUp then s
  else
    match r with
    | Outcome.ok rep =>
        { s with loading := false,
                 chat := s.chat ++ [⟨Role.user, s.followUp⟩, ⟨Role.bot, rep⟩],
                 followUp := "" }
    | Outcome.err => { s with loading := true }

/-- The body field of the POST issued by `handleStartChat`, `none` when
the blank guard returns before the request is made. -/
def startChatRequest (s : UState) : Option String :=
  if jsTrimEmpty s.company then none else some s.company

/-- The body field of the POST issued by `handleFollowUp`, `none` when
the blank guard returns before the request is made. -/
def followUpRequest (s : UState) : Option String :=
  if jsTrimEmpty s.followUp then none else some s.followUp

/-- Role tag as it appears in the object literal. -/
def roleStr : Role → String
  | Role.user => "user"
  | Role.bot => "bot"

/-- Field list of a query variant message, key for key the object literal
of App.js: `sender` then `text`. -/
def QMsg.fields (m : QMsg) : List (String × String) :=
  [("sender", senderStr m.sender), ("text", m.text)]

/-- Field list of an unnamed variant message, key for key the object
literal of part_000: `role` then `text`. -/
def UMsg.fields (m : UMsg) : List (String × String) :=
  [("role", roleStr m.role), ("text", m.text)]

/-- Observable call state of the unnamed variant event loop: the
`loading` flag and the number of outstanding requests. -/
structure ULoop where
  loading : Bool
  pending : Nat
deriving DecidableEq

/-- Events of the unnamed variant: a click on either button (carrying
whether the corresponding input is blank) or the arrival of a response
(successful, or a rejection that skips the rest of the handler). -/
inductive UEvent where
  | clickStart (blank : Bool)
  | clickFollowUp (blank : Bool)
  | respondOk
  | respondErr
deriving DecidableEq

/-- One step of the unnamed variant event loop.  Both buttons carry
`disabled=loading` (part_000 lines 52 and 78), so a click while loading
does nothing; a non-blank click sets the flag and issues one request; a
successful response clears the flag, a rejected one leaves it set. -/
def ustep (s : ULoop) : UEvent → ULoop
  | UEvent.clickStart blank =>
      if s.loading then s else if blank then s else ⟨true, s.pending + 1⟩
  | UEvent.clickFollowUp blank =>
      if s.loading then s else if blank then s else ⟨true, s.pending + 1⟩
  | UEvent.respondOk =>
      if s.pending = 0 then s else ⟨false, s.pending - 1⟩
  | UEvent.respondErr =>
      if s.pending = 0 then s else ⟨s.loading, s.pending - 1⟩

/-- Runs the unnamed variant event loop from its initial state. -/
def urun (evs : List UEvent) : ULoop :=
  evs.foldl ustep ⟨false, 0⟩

/-- Observable call state of the query variant event loop: the input
value and the number of outstanding requests. -/
structure QLoop where
  query : String
  pending : Nat
deriving DecidableEq

/-- Events of the query variant: editing the input, submitting the form,
or the arrival of a response. -/
inductive QEvent where
  | setQ (s : String)
  | submit
  | respond
deriving DecidableEq

/-- One step of the query variant event loop.  App.js has no loading
flag: nothing disables the form while a request is outstanding, so every
non-blank submit issues a request. -/
def qstep (s : QLoop) : QEvent → QLoop
  | QEvent.setQ q => ⟨q, s.pending⟩
  | QEvent.submit => if jsTrimEmpty s.query then s else ⟨"", s.pending + 1⟩
  | QEvent.respond => ⟨s.query, s.pending - 1⟩

/-- Runs the query variant event loop from its initial state. -/
def qrun (evs : List QEvent) : QLoop :=
  evs.foldl qstep ⟨"", 0⟩

/-! Round-trip lemmas for the serialization written by the save effect
and the parse performed by the load effect. -/

/-- A literal prefix is consumed exactly. -/
theorem dropLit_append (l cs : List Char) : dropLit l (l ++ cs) = some cs := by
  induction l with
  | nil => rfl
  | cons c ls ih => simp [dropLit, ih]

/-- The hexadecimal digit characters decode to their values. -/
theorem hexVal_hexDigitChar (k : Nat) (h : k < 16) :
    hexVal (hexDigitChar k) = some k := by
  interval_cases k <;> decide

/-- Shape of the parser at a closing quote. -/
theorem parseEscStr_quote (cs : List Char) :
    parseEscStr ('"' :: cs) = some ([], cs) := by
  rw [parseEscStr.eq_def]; simp

/-- Shape of the parser at an escaped quote. -/
theorem parseEscStr_eq (cs : List Char) :
    parseEscStr ('\\' :: '"' :: cs)
      = Option.map (fun p => ('"' :: p.1, p.2)) (parseEscStr cs) := by
  rw [parseEscStr.eq_def]; simp

/-- Shape of the parser at an escaped backslash. -/
theorem parseEscStr_eb (cs : List Char) :
    parseEscStr ('\\' :: '\\' :: cs)
      = Option.map (fun p => ('\\' :: p.1, p.2)) (parseEscStr cs) := by
  rw [parseEscStr.eq_def]; simp

/-- Shape of the parser at an escaped newline. -/
theorem parseEscStr_en (cs : List Char) :
    parseEscStr ('\\' :: 'n' :: cs)
      = Option.map (fun p => ('\n' :: p.1, p.2)) (parseEscStr cs) := by
  rw [parseEscStr.eq_def]; simp

/-- Shape of the parser at an escaped tab. -/
theorem parseEscStr_et (cs : List Char) :
    parseEscStr ('\\' :: 't' :: cs)
      = Option.map (fun p => ('\t' :: p.1, p.2)) (parseEscStr cs) := by
  rw [parseEscStr.eq_def]; simp

/-- Shape of the parser at an escaped carriage return. -/
theorem parseEscStr_er (cs : List Char) :
    parseEscStr ('\\' :: 'r' :: cs)
      = Option.map (fun p => ('\r' :: p.1, p.2)) (parseEscStr cs) := by
  rw [parseEscStr.eq_def]; simp

/-- Shape of the parser at an escaped backspace. -/
theorem parseEscStr_ebs (cs : List Char) :
    parseEscStr ('\\' :: 'b' :: cs)
      = Option.map (fun p => (Char.ofNat 8 :: p.1, p.2)) (parseEscStr cs) := by
  rw [parseEscStr.eq_def]; simp

/-- Shape of the parser at an escaped form feed. -/
theorem parseEscStr_ef (cs : List Char) :
    parseEscStr ('\\' :: 'f' :: cs)
      = Option.map (fun p => (Char.ofNat 12 :: p.1, p.2)) (parseEscStr cs) := by
  rw [parseEscStr.eq_def]; simp

/-- Shape of the parser at a hexadecimal escape whose digits decode. -/
theorem parseEscStr_eu (a b c2 d : Char) (cs : List Char) (x1 x2 x3 x4 : Nat)
    (ha : hexVal a = some x1) (hb : hexVal b = some x2)
    (hc : hexVal c2 = some x3) (hd : hexVal d = some x4) :
    parseEscStr ('\\' :: 'u' :: a :: b :: c2 :: d :: cs)
      = Option.map
          (fun p => (Char.ofNat (((x1 * 16 + x2) * 16 + x3) * 16 + x4) :: p.1, p.2))
          (parseEscStr cs) := by
  have h : parseEscStr ('\\' :: 'u' :: a :: b :: c2 :: d :: cs)
      = (match hexVal a, hexVal b, hexVal c2, hexVal d with
         | some y1, some y2, some y3, some y4 =>
             Option.map
               (fun p => (Char.ofNat (((y1 * 16 + y2) * 16 + y3) * 16 + y4) :: p.1, p.2))
               (parseEscStr cs)
         | _, _, _, _ => none) := rfl
  rw [h, ha, hb, hc, hd]

/-- Shape of the parser at an unescaped ordinary character. -/
theorem parseEscStr_other (c : Char) (cs : List Char)
    (h1 : c ≠ '"') (h2 : c ≠ '\\') :
    parseEscStr (c :: cs)
      = Option.map (fun p => (c :: p.1, p.2)) (parseEscStr cs) := by
  conv_lhs => rw [parseEscStr.eq_def]
  simp only [if_neg h1, if_neg h2]

/-- Unescaping undoes escaping, one character at a time: parsing the
escaped form of `s` followed by a closing quote yields `s` and the rest
of the input. -/
theorem parseEscStr_escStr (s : List Char) (cs : List Char) :
    parseEscStr (escStr s ++ '"' :: cs) = some (s, cs) := by
  induction s with
  | nil =>
    show parseEscStr ([] ++ '"' :: cs) = _
    rw [List.nil_append, parseEscStr_quote]
  | cons c ctail ih =>
    have hstep : escStr (c :: ctail) = escChar c ++ escStr ctail := rfl
    rw [hstep, List.append_assoc]
    by_cases h1 : c = '"'
    · subst h1
      rw [show escChar '"' = ['\\', '"'] from rfl]
      simp only [List.cons_append, List.nil_append]
      rw [parseEscStr_eq, ih]
      rfl
    · by_cases h2 : c = '\\'
      · subst h2
        rw [show escChar '\\' = ['\\', '\\'] from rfl]
        simp only [List.cons_append, List.nil_append]
        rw [parseEscStr_eb, ih]
        rfl
      · by_cases h3 : c = '\n'
        · subst h3
          rw [show escChar '\n' = ['\\', 'n'] from rfl]
          simp only [List.cons_append, List.nil_append]
          rw [parseEscStr_en, ih]
          rfl
        · by_cases h4 : c = '\t'
          · subst h4
            rw [show escChar '\t' = ['\\', 't'] from rfl]
            simp only [List.cons_append, List.nil_append]
            rw [parseEscStr_et, ih]
            rfl
          · by_cases h5 : c = '\r'
            · subst h5
              rw [show escChar '\r' = ['\\', 'r'] from rfl]
              simp only [List.cons_append, List.nil_append]
              rw [parseEscStr_er, ih]
              rfl
            · by_cases h6 : c.toNat = 8
              · have he : escChar c = ['\\', 'b'] := by
                  simp [escChar, h1, h2, h3, h4, h5, h6]
                rw [he]
                simp only [List.cons_append, List.nil_append]
                rw [parseEscStr_ebs, ih]
                simp only [Option.map_some']
                rw [show Char.ofNat 8 = c from by rw [← h6, Char.ofNat_toNat]]
              · by_cases h7 : c.toNat = 12
                · have he : escChar c = ['\\', 'f'] := by
                    simp [escChar, h1, h2, h3, h4, h5, h6, h7]
                  rw [he]
                  simp only [List.cons_append, List.nil_append]
                  rw [parseEscStr_ef, ih]
                  simp only [Option.map_some']
                  rw [show Char.ofNat 12 = c from by rw [← h7, Char.ofNat_toNat]]
                · by_cases h8 : c.toNat < 32
                  · have hd1 : c.toNat / 16 < 16 := by omega
                    have hd2 : c.toNat % 16 < 16 := by omega
                    have he : escChar c = ['\\', 'u', '0', '0',
                        hexDigitChar (c.toNat / 16), hexDigitChar (c.toNat % 16)] := by
                      simp [escChar, h1, h2, h3, h4, h5, h6, h7, h8]
                    rw [he]
                    simp only [List.cons_append, List.nil_append]
                    rw [parseEscStr_eu _ _ _ _ _ 0 0 (c.toNat / 16) (c.toNat % 16)
                      (by decide) (by decide) (hexVal_hexDigitChar _ hd1)
                      (hexVal_hexDigitChar _ hd2), ih]
                    simp only [Option.map_some']
                    rw [show ((0 * 16 + 0) * 16 + c.toNat / 16) * 16 + c.toNat % 16
                        = c.toNat from by omega, Char.ofNat_toNat]
                  · have he : escChar c = [c] := by
                      simp [escChar, h1, h2, h3, h4, h5, h6, h7, h8]
                    rw [he]
                    simp only [List.cons_append, List.nil_append]
                    rw [parseEscStr_other c _ h1 h2, ih]
                    rfl

/-- Rebuilding a string from its character list is the identity. -/
theorem mk_data (s : String) : String.mk s.data = s := rfl

/-- Parsing one serialized message undoes its serialization and leaves
the rest of the input. -/
theorem parseMsg_msgChars (m : QMsg) (rest : List Char) :
    parseMsg (msgChars m ++ rest) = some (m, rest) := by
  obtain ⟨snd, txt⟩ := m
  cases snd <;>
    simp [msgChars, parseMsg, senderStr, dropLit, parseEscStr_escStr, mk_data]

/-- One step of the array parser at a serialized message. -/
theorem parseItems_step (fuel : Nat) (m : QMsg) (rest : List Char) :
    parseItems (Nat.succ fuel) (msgChars m ++ rest)
      = match rest with
        | [] => none
        | c :: rest2 =>
          if c = ',' then
            match parseItems fuel rest2 with
            | some (ms, r) => some (m :: ms, r)
            | none => none
          else if c = ']' then some ([m], rest2)
          else none := by
  rw [parseItems.eq_def]
  simp only [parseMsg_msgChars]

/-- Parsing the serialized elements of a nonempty transcript returns the
transcript, provided the fuel covers its length. -/
theorem parseItems_msgsChars (t : List QMsg) :
    ∀ fuel : Nat, t ≠ [] →
      parseItems (fuel + t.length) (msgsChars t ++ [']']) = some (t, []) := by
  induction t with
  | nil => intro fuel h; exact absurd rfl h
  | cons m ms ih =>
    intro fuel _
    cases ms with
    | nil =>
      show parseItems (Nat.succ fuel) (msgsChars [m] ++ [']']) = _
      rw [show msgsChars [m] = msgChars m from rfl]
      rw [parseItems_step]
      simp
    | cons m2 ms2 =>
      have hne : (m2 :: ms2 : List QMsg) ≠ [] := by simp
      have hrec := ih fuel hne
      simp only [List.length_cons] at hrec
      show parseItems (Nat.succ (fuel + (ms2.length + 1)))
          (msgsChars (m :: m2 :: ms2) ++ [']']) = _
      rw [show msgsChars (m :: m2 :: ms2)
          = msgChars m ++ ',' :: msgsChars (m2 :: ms2) from rfl]
      simp only [List.append_assoc, List.cons_append]
      rw [parseItems_step]
      simp [hrec]

/-- A serialized message is never empty. -/
theorem msgChars_length_pos (m : QMsg) : 0 < (msgChars m).length := by
  rw [msgChars]
  simp [List.length_append]

/-- The serialized elements are at least as many characters as there are
messages. -/
theorem length_le_msgsChars (t : List QMsg) :
    t.length ≤ (msgsChars t).length := by
  induction t with
  | nil => simp [msgsChars]
  | cons m ms ih =>
    cases ms with
    | nil =>
      rw [show msgsChars [m] = msgChars m from rfl]
      have := msgChars_length_pos m
      simp
      omega
    | cons m2 ms2 =>
      rw [show msgsChars (m :: m2 :: ms2)
          = msgChars m ++ ',' :: msgsChars (m2 :: ms2) from rfl]
      have := msgChars_length_pos m
      simp only [List.length_append, List.length_cons] at *
      omega

/-- Parsing the stored serialization of a transcript returns exactly that
transcript. -/
theorem parseChatHistory_chatHistoryJson (t : List QMsg) :
    parseChatHistory (chatHistoryJson t) = some t := by
  cases t with
  | nil => rfl
  | cons m ms =>
    show parseChatHistory (String.mk ('[' :: msgsChars (m :: ms) ++ [']'])) = _
    rw [parseChatHistory]
    show (if ('[' : Char) = '[' then
        if msgsChars (m :: ms) ++ [']'] = [']'] then some []
        else
          match parseItems ((msgsChars (m :: ms) ++ [']']).length + 1)
              (msgsChars (m :: ms) ++ [']']) with
          | some (ms2, []) => some ms2
          | _ => none
      else none) = some (m :: ms)
    have hlen : (m :: ms).length ≤ (msgsChars (m :: ms) ++ [']']).length + 1 := by
      have := length_le_msgsChars (m :: ms)
      simp only [List.length_append, List.length_cons] at *
      omega
    have hne2 : msgsChars (m :: ms) ++ [']'] ≠ [']'] := by
      have h0 := msgChars_length_pos m
      cases ms with
      | nil =>
        rw [show msgsChars [m] = msgChars m from rfl]
        intro h
        have hl := congrArg List.length h
        simp only [List.length_append, List.length_cons, List.length_nil] at hl
        omega
      | cons m2 ms2 =>
        rw [show msgsChars (m :: m2 :: ms2)
            = msgChars m ++ ',' :: msgsChars (m2 :: ms2) from rfl]
        intro h
        have hl := congrArg List.length h
        simp only [List.length_append, List.length_cons, List.length_nil] at hl
        omega
    rw [if_pos rfl, if_neg hne2]
    obtain ⟨fuel, hfuel⟩ : ∃ fuel,
        (msgsChars (m :: ms) ++ [']']).length + 1 = fuel + (m :: ms).length :=
      ⟨(msgsChars (m :: ms) ++ [']']).length + 1 - (m :: ms).length,
        by omega⟩
    rw [hfuel, parseItems_msgsChars (m :: ms) fuel (by simp)]

/-! Claim theorems. -/

/-- C3: for every transcript state, persisting it (serializing the
message list to the browser-local key) and then reloading (deserializing
the stored value back into the transcript) restores exactly the same
sequence of messages as before the reload. -/
theorem c3_persist_reload_roundtrip (t : List QMsg) (stored : Option String) :
    loadChatHistory (saveChatHistory t stored) = t := by
  rw [saveChatHistory, loadChatHistory]
  have hne : chatHistoryJson t ≠ "" := by
    intro h
    have := congrArg String.data h
    rw [show (chatHistoryJson t).data = '[' :: msgsChars t ++ [']'] from rfl] at this
    simp at this
  rw [if_neg hne, parseChatHistory_chatHistoryJson]
  rfl

/-- C4 counterexample: on a concrete state, the clear interaction empties
the transcript but the browser-local key is not removed once the save
effect has fired: it holds the serialized empty array. -/
theorem c4_counterexample :
    (clearCycle ⟨"", [⟨Sender.user, "hi"⟩], some "old"⟩).chatHistory = []
    ∧ (clearCycle ⟨"", [⟨Sender.user, "hi"⟩], some "old"⟩).stored ≠ none := by
  constructor
  · rfl
  · intro h
    simp [clearCycle, saveEffect, handleClear] at h

/-- C4 amended: the clear handler itself resets the transcript to the
empty list and removes the persisted key, regardless of the previous
contents; but the save effect that fires on the resulting re-render
immediately re-creates the key with the serialization of the empty
transcript, so after a full clear interaction the key holds the string
of the empty array rather than being absent. -/
theorem c4_clear_amended :
    (∀ p : PersistedApp,
        (handleClear p).chatHistory = [] ∧ (handleClear p).stored = none)
    ∧ (∀ p : PersistedApp,
        (clearCycle p).chatHistory = []
          ∧ (clearCycle p).stored = some (chatHistoryJson []))
    ∧ chatHistoryJson [] = "[]" := by
  refine ⟨fun p => ⟨rfl, rfl⟩, fun p => ⟨rfl, rfl⟩, rfl⟩

/-- C5: after every change to the chat transcript, the single
browser-local key holds exactly the serialization of the current full
transcript, written wholesale: every non-blank submit interaction leaves
the key equal to the serialization of the new transcript, every clear
interaction does the same, and the mirroring property is preserved by
every interaction. -/
theorem c5_store_mirrors_transcript :
    (∀ (p : PersistedApp) (r : FetchResult), jsTrimEmpty p.query = false →
        (submitCycle p r).stored
          = some (chatHistoryJson (submitCycle p r).chatHistory))
    ∧ (∀ p : PersistedApp,
        (clearCycle p).stored
          = some (chatHistoryJson (clearCycle p).chatHistory))
    ∧ (∀ (p : PersistedApp) (r : FetchResult),
        p.stored = some (chatHistoryJson p.chatHistory) →
          (submitCycle p r).stored
            = some (chatHistoryJson (submitCycle p r).chatHistory)) := by
  refine ⟨?_, fun p => rfl, ?_⟩
  · intro p r h
    rw [submitCycle, if_neg (by simp [h])]
    rfl
  · intro p r h
    by_cases hb : jsTrimEmpty p.query
    · rw [submitCycle, if_pos hb, h]
    · rw [submitCycle, if_neg hb]
      rfl

/-- C5 witness: the mirroring equation evaluated on one concrete
non-blank submission. -/
theorem c5_witness :
    (submitCycle ⟨"hi", [], none⟩ FetchResult.failure).stored
      = some (chatHistoryJson
          (submitCycle ⟨"hi", [], none⟩ FetchResult.failure).chatHistory) :=
  c5_store_mirrors_transcript.1 ⟨"hi", [], none⟩ FetchResult.failure (by decide)

/-- C1 counterexample: starting a chat on a concrete state whose
transcript already holds a message replaces the transcript with the
single insight message, so the prior message does not remain present. -/
theorem c1_counterexample :
    (handleStartChat ⟨"Acme", [⟨Role.user, "hello"⟩], false, ""⟩
        (Outcome.ok "insight")).chat = [⟨Role.bot, "insight"⟩]
    ∧ (⟨Role.user, "hello"⟩ : UMsg)
        ∉ (handleStartChat ⟨"Acme", [⟨Role.user, "hello"⟩], false, ""⟩
            (Outcome.ok "insight")).chat
    ∧ (⟨Role.user, "hello"⟩ : UMsg)
        ∈ (⟨"Acme", [⟨Role.user, "hello"⟩], false, ""⟩ : UState).chat := by
  refine ⟨by decide, by decide, by decide⟩

/-- C1 amended: submitting a query and sending a follow-up only ever
append at the end, leaving the existing messages present, unchanged and
in order; starting a chat, however, either leaves the transcript
unchanged (blank input or failed request) or replaces it wholesale with
the single bot insight message. -/
theorem c1_append_only_amended :
    (∀ (s : AppState) (r : FetchResult),
        ∃ tail, (handleSubmit s r).chatHistory = s.chatHistory ++ tail)
    ∧ (∀ (s : UState) (r : Outcome String),
        ∃ tail, (handleFollowUp s r).chat = s.chat ++ tail)
    ∧ (∀ (s : UState) (r : Outcome String),
        (handleStartChat s r).chat = s.chat
          ∨ ∃ ins, (handleStartChat s r).chat = [⟨Role.bot, ins⟩]) := by
  refine ⟨?_, ?_, ?_⟩
  · intro s r
    rw [handleSubmit]
    by_cases h : jsTrimEmpty s.query
    · rw [if_pos h]
      exact ⟨[], by simp⟩
    · rw [if_neg h]
      cases r with
      | success d =>
        exact ⟨[⟨Sender.user, s.query⟩, ⟨Sender.bot, rawReply d⟩], by simp⟩
      | failure =>
        exact ⟨[⟨Sender.user, s.query⟩, ⟨Sender.bot, fallbackText⟩], by simp⟩
  · intro s r
    rw [handleFollowUp.eq_def]
    by_cases h : jsTrimEmpty s.followUp
    · rw [if_pos h]
      exact ⟨[], by simp⟩
    · rw [if_neg h]
      cases r with
      | ok rep => exact ⟨[⟨Role.user, s.followUp⟩, ⟨Role.bot, rep⟩], rfl⟩
      | err => exact ⟨[], by simp⟩
  · intro s r
    rw [handleStartChat.eq_def]
    by_cases h : jsTrimEmpty s.company
    · rw [if_pos h]
      exact Or.inl rfl
    · rw [if_neg h]
      cases r with
      | ok ins => exact Or.inr ⟨ins, rfl⟩
      | err => exact Or.inl rfl

/-- C2 counterexample: a failing follow-up request in the unnamed
variant appends nothing at all: on a concrete state the transcript is
unchanged and in particular does not gain the fixed fallback message. -/
theorem c2_counterexample :
    (handleFollowUp ⟨"", [], false, "help"⟩ Outcome.err).chat = []
    ∧ (handleFollowUp ⟨"", [], false, "help"⟩ Outcome.err).chat
        ≠ [⟨Role.bot, fallbackText⟩] := by
  refine ⟨by decide, by decide⟩

/-- C2 amended: only the query variant catches request failures, and
there a failure appends exactly one fixed bot message (the static text
of `fallbackText`) after the user message, with no retry; in the unnamed
variant failures are not caught: a failing start chat or follow-up
leaves the transcript untouched and merely leaves the loading flag
set. -/
theorem c2_error_handling_amended :
    (∀ s : AppState, jsTrimEmpty s.query = false →
        (handleSubmit s FetchResult.failure).chatHistory
          = s.chatHistory ++ [⟨Sender.user, s.query⟩, ⟨Sender.bot, fallbackText⟩])
    ∧ (∀ s : UState,
        handleStartChat s Outcome.err
          = if jsTrimEmpty s.company then s else { s with loading := true })
    ∧ (∀ s : UState,
        handleFollowUp s Outcome.err
          = if jsTrimEmpty s.followUp then s else { s with loading := true }) := by
  refine ⟨?_, ?_, ?_⟩
  · intro s h
    rw [handleSubmit, if_neg (by simp [h])]
    simp
  · intro s
    rw [handleStartChat.eq_def]
  · intro s
    rw [handleFollowUp.eq_def]

/-- C2 witness: the amended failure behaviour evaluated on one concrete
non-blank submission of the query variant. -/
theorem c2_witness :
    (handleSubmit ⟨"q", []⟩ FetchResult.failure).chatHistory
      = [⟨Sender.user, "q"⟩, ⟨Sender.bot, fallbackText⟩] := by
  have h := c2_error_handling_amended.1 ⟨"q", []⟩ (by decide)
  simpa using h

/-- C6 counterexample: a response whose `reply` field is present but
empty is falsy in JavaScript, so the bot text falls through to the
insight instead of equalling the present reply field. -/
theorem c6_counterexample :
    (QueryResponse.mk (some "") (some "hi")).reply = some ""
    ∧ rawReply (QueryResponse.mk (some "") (some "hi")) ≠ "" := by
  refine ⟨rfl, by decide⟩

/-- C6 amended: the bot message text equals the reply field when it is
present and non-empty, otherwise the insight field when that is present
and non-empty, otherwise the two-space pretty-printed JSON serialization
of the whole response body; and on a successful non-blank submission the
appended bot message carries exactly this text. -/
theorem c6_bot_text_amended :
    (∀ (r : QueryResponse) (t : String), r.reply = some t → t ≠ "" →
        rawReply r = t)
    ∧ (∀ (r : QueryResponse) (t : String), truthyStr r.reply = false →
        r.insight = some t → t ≠ "" → rawReply r = t)
    ∧ (∀ r : QueryResponse, truthyStr r.reply = false →
        truthyStr r.insight = false → rawReply r = prettyJson r)
    ∧ (∀ (s : AppState) (d : QueryResponse), jsTrimEmpty s.query = false →
        (handleSubmit s (FetchResult.success d)).chatHistory
          = s.chatHistory ++ [⟨Sender.user, s.query⟩, ⟨Sender.bot, rawReply d⟩]) := by
  refine ⟨?_, ?_, ?_, ?_⟩
  · intro r t hr ht
    rw [rawReply, if_pos (by simp [truthyStr, hr, ht]), hr]
    rfl
  · intro r t hr hi ht
    rw [rawReply, if_neg (by simp [hr]), if_pos (by simp [truthyStr, hi, ht]), hi]
    rfl
  · intro r hr hi
    rw [rawReply, if_neg (by simp [hr]), if_neg (by simp [hi])]
  · intro s d h
    rw [handleSubmit, if_neg (by simp [h])]
    simp

/-- C6 witness: the amended reply selection evaluated on a concrete
response carrying a non-empty reply. -/
theorem c6_witness : rawReply (QueryResponse.mk (some "ok") none) = "ok" :=
  c6_bot_text_amended.1 (QueryResponse.mk (some "ok") none) "ok" rfl (by decide)

/-- C7 counterexample: the message placed in the transcript by a
successful start chat carries no `sender` key at all: its role key is
`role`. -/
theorem c7_counterexample :
    (handleStartChat ⟨"Acme", [], false, ""⟩ (Outcome.ok "insight")).chat
        = [⟨Role.bot, "insight"⟩]
    ∧ ((⟨Role.bot, "insight"⟩ : UMsg).fields).lookup "sender" = none := by
  refine ⟨by decide, by decide⟩

/-- C7 amended: every query variant message carries a `sender` field
whose value is `user` or `bot` and a string `text` field, while every
unnamed variant message instead carries a `role` field whose value is
`user` or `bot` (and no `sender` field) together with a string `text`
field. -/
theorem c7_message_fields_amended :
    (∀ m : QMsg,
        ((m.fields).lookup "sender" = some "user"
            ∨ (m.fields).lookup "sender" = some "bot")
          ∧ (m.fields).lookup "text" = some m.text)
    ∧ (∀ m : UMsg,
        ((m.fields).lookup "role" = some "user"
            ∨ (m.fields).lookup "role" = some "bot")
          ∧ (m.fields).lookup "sender" = none
          ∧ (m.fields).lookup "text" = some m.text) := by
  constructor
  · intro m
    obtain ⟨snd, txt⟩ := m
    cases snd with
    | user => exact ⟨Or.inl rfl, rfl⟩
    | bot => exact ⟨Or.inr rfl, rfl⟩
  · intro m
    obtain ⟨rl, txt⟩ := m
    cases rl with
    | user => exact ⟨Or.inl rfl, rfl, rfl⟩
    | bot => exact ⟨Or.inr rfl, rfl, rfl⟩

/-- Invariant of the unnamed variant event loop: never more than one
outstanding call, and none at all while the buttons are enabled. -/
def uinv (s : ULoop) : Prop :=
  s.pending ≤ 1 ∧ (s.loading = false → s.pending = 0)

/-- One event of the unnamed variant preserves the invariant. -/
theorem ustep_uinv (s : ULoop) (e : UEvent) (h : uinv s) : uinv (ustep s e) := by
  obtain ⟨h1, h2⟩ := h
  cases e with
  | clickStart blank =>
    show uinv (if s.loading then s else if blank then s else ⟨true, s.pending + 1⟩)
    by_cases hl : s.loading
    · rw [if_pos hl]; exact ⟨h1, h2⟩
    · rw [if_neg hl]
      have h0 : s.pending = 0 := h2 (by simpa using hl)
      cases blank with
      | true => rw [if_pos rfl]; exact ⟨h1, h2⟩
      | false =>
        rw [if_neg (by simp)]
        refine ⟨?_, ?_⟩
        · show s.pending + 1 ≤ 1
          omega
        · intro hc
          exact Bool.noConfusion hc
  | clickFollowUp blank =>
    show uinv (if s.loading then s else if blank then s else ⟨true, s.pending + 1⟩)
    by_cases hl : s.loading
    · rw [if_pos hl]; exact ⟨h1, h2⟩
    · rw [if_neg hl]
      have h0 : s.pending = 0 := h2 (by simpa using hl)
      cases blank with
      | true => rw [if_pos rfl]; exact ⟨h1, h2⟩
      | false =>
        rw [if_neg (by simp)]
        refine ⟨?_, ?_⟩
        · show s.pending + 1 ≤ 1
          omega
        · intro hc
          exact Bool.noConfusion hc
  | respondOk =>
    show uinv (if s.pending = 0 then s else ⟨false, s.pending - 1⟩)
    by_cases hp : s.pending = 0
    · rw [if_pos hp]; exact ⟨h1, h2⟩
    · rw [if_neg hp]
      refine ⟨?_, fun _ => ?_⟩
      · show s.pending - 1 ≤ 1
        omega
      · show s.pending - 1 = 0
        omega
  | respondErr =>
    show uinv (if s.pending = 0 then s else ⟨s.loading, s.pending - 1⟩)
    by_cases hp : s.pending = 0
    · rw [if_pos hp]; exact ⟨h1, h2⟩
    · rw [if_neg hp]
      refine ⟨?_, fun hl => ?_⟩
      · show s.pending - 1 ≤ 1
        omega
      · have h0 := h2 hl
        show s.pending - 1 = 0
        omega

/-- The invariant holds along any run of the unnamed variant loop. -/
theorem urun_uinv (evs : List UEvent) : uinv (urun evs) := by
  rw [urun]
  have hinit : uinv ⟨false, 0⟩ := ⟨by decide, fun _ => rfl⟩
  generalize hs : (⟨false, 0⟩ : ULoop) = s0
  rw [hs] at hinit
  clear hs
  induction evs generalizing s0 with
  | nil => exact hinit
  | cons e evs ih => exact ih (ustep s0 e) (ustep_uinv s0 e hinit)

/-- C8 counterexample: in the query variant nothing disables the form
while a request is outstanding, so submitting, typing again and
submitting again before any response arrives leaves two outstanding
network calls at once. -/
theorem c8_counterexample :
    ¬ (qrun [QEvent.setQ "a", QEvent.submit,
        QEvent.setQ "b", QEvent.submit]).pending ≤ 1 := by
  decide

/-- C8 amended: every single user action issues at most one network
call (one step of either loop raises the outstanding count by at most
one); in the unnamed variant the disabled buttons moreover keep at most
one call outstanding at any time, but the query variant has no such
guard. -/
theorem c8_single_call_amended :
    (∀ evs : List UEvent, (urun evs).pending ≤ 1)
    ∧ (∀ (s : QLoop) (e : QEvent), (qstep s e).pending ≤ s.pending + 1)
    ∧ (∀ (s : ULoop) (e : UEvent), (ustep s e).pending ≤ s.pending + 1) := by
  refine ⟨fun evs => (urun_uinv evs).1, ?_, ?_⟩
  · intro s e
    cases e with
    | setQ q =>
      show s.pending ≤ s.pending + 1
      omega
    | submit =>
      show (if jsTrimEmpty s.query then s
          else ⟨"", s.pending + 1⟩ : QLoop).pending ≤ s.pending + 1
      by_cases h : jsTrimEmpty s.query
      · rw [if_pos h]; omega
      · rw [if_neg h]
    | respond =>
      show s.pending - 1 ≤ s.pending + 1
      omega
  · intro s e
    cases e with
    | clickStart blank =>
      show (if s.loading then s else if blank then s
          else ⟨true, s.pending + 1⟩ : ULoop).pending ≤ s.pending + 1
      by_cases hl : s.loading
      · rw [if_pos hl]; omega
      · rw [if_neg hl]
        cases blank with
        | true =>
          show s.pending ≤ s.pending + 1
          omega
        | false =>
          show s.pending + 1 ≤ s.pending + 1
          omega
    | clickFollowUp blank =>
      show (if s.loading then s else if blank then s
          else ⟨true, s.pending + 1⟩ : ULoop).pending ≤ s.pending + 1
      by_cases hl : s.loading
      · rw [if_pos hl]; omega
      · rw [if_neg hl]
        cases blank with
        | true =>
          show s.pending ≤ s.pending + 1
          omega
        | false =>
          show s.pending + 1 ≤ s.pending + 1
          omega
    | respondOk =>
      show (if s.pending = 0 then s
          else ⟨false, s.pending - 1⟩ : ULoop).pending ≤ s.pending + 1
      by_cases hp : s.pending = 0
      · rw [if_pos hp]; omega
      · rw [if_neg hp]
        show s.pending - 1 ≤ s.pending + 1
        omega
    | respondErr =>
      show (if s.pending = 0 then s
          else ⟨s.loading, s.pending - 1⟩ : ULoop).pending ≤ s.pending + 1
      by_cases hp : s.pending = 0
      · rw [if_pos hp]; omega
      · rw [if_neg hp]
        show s.pending - 1 ≤ s.pending + 1
        omega

/-- C9: a whitespace-only (or empty) input makes each handler return
immediately: the state is unchanged, no request is issued, and for the
query variant the persisted key is untouched as well. -/
theorem c9_blank_input_noop :
    (∀ (s : AppState) (r : FetchResult), jsTrimEmpty s.query = true →
        handleSubmit s r = s ∧ submitRequest s = none)
    ∧ (∀ (p : PersistedApp) (r : FetchResult), jsTrimEmpty p.query = true →
        submitCycle p r = p)
    ∧ (∀ (s : UState) (r : Outcome String), jsTrimEmpty s.company = true →
        handleStartChat s r = s ∧ startChatRequest s = none)
    ∧ (∀ (s : UState) (r : Outcome String), jsTrimEmpty s.followUp = true →
        handleFollowUp s r = s ∧ followUpRequest s = none) := by
  refine ⟨?_, ?_, ?_, ?_⟩
  · intro s r h
    exact ⟨by rw [handleSubmit, if_pos h], by rw [submitRequest, if_pos h]⟩
  · intro p r h
    rw [submitCycle, if_pos h]
  · intro s r h
    exact ⟨by rw [handleStartChat.eq_def, if_pos h], by rw [startChatRequest, if_pos h]⟩
  · intro s r h
    exact ⟨by rw [handleFollowUp.eq_def, if_pos h], by rw [followUpRequest, if_pos h]⟩

/-- C9 witness: the no-op behaviour evaluated on a concrete
whitespace-only query. -/
theorem c9_witness :
    handleSubmit ⟨"  ", []⟩ FetchResult.failure = ⟨"  ", []⟩ :=
  (c9_blank_input_noop.1 ⟨"  ", []⟩ FetchResult.failure (by decide)).1

/-- C10 counterexample: when a follow-up request fails in the unnamed
variant the user message is not appended at all, contrary to the claim
that it is appended even when the request subsequently fails. -/
theorem c10_counterexample :
    (⟨Role.user, "question"⟩ : UMsg)
      ∉ (handleFollowUp ⟨"", [⟨Role.bot, "i"⟩], false, "question"⟩
          Outcome.err).chat := by
  decide

/-- C10 amended: on a successful response a non-blank submission or
follow-up appends exactly two messages, first the user message carrying
the submitted input, then the bot message; in the query variant the user
message is appended and remains even when the request fails, while in
the unnamed variant a failing follow-up appends nothing at all. -/
theorem c10_two_messages_amended :
    (∀ (s : AppState) (d : QueryResponse), jsTrimEmpty s.query = false →
        (handleSubmit s (FetchResult.success d)).chatHistory
          = s.chatHistory ++ [⟨Sender.user, s.query⟩, ⟨Sender.bot, rawReply d⟩]
          ∧ (handleSubmit s FetchResult.failure).chatHistory
              = s.chatHistory
                  ++ [⟨Sender.user, s.query⟩, ⟨Sender.bot, fallbackText⟩])
    ∧ (∀ (s : UState) (rep : String), jsTrimEmpty s.followUp = false →
        (handleFollowUp s (Outcome.ok rep)).chat
          = s.chat ++ [⟨Role.user, s.followUp⟩, ⟨Role.bot, rep⟩])
    ∧ (∀ s : UState, (handleFollowUp s Outcome.err).chat = s.chat) := by
  refine ⟨?_, ?_, ?_⟩
  · intro s d h
    constructor
    · rw [handleSubmit, if_neg (by simp [h])]
      simp
    · rw [handleSubmit, if_neg (by simp [h])]
      simp
  · intro s rep h
    rw [handleFollowUp.eq_def, if_neg (by simp [h])]
  · intro s
    rw [handleFollowUp.eq_def]
    by_cases h : jsTrimEmpty s.followUp
    · rw [if_pos h]
    · rw [if_neg h]

/-- C10 witness: the two appended messages evaluated on one concrete
successful follow-up. -/
theorem c10_witness :
    (handleFollowUp ⟨"", [], false, "q"⟩ (Outcome.ok "r")).chat
      = [⟨Role.user, "q"⟩, ⟨Role.bot, "r"⟩] := by
  have h := c10_two_messages_amended.2.1 ⟨"", [], false, "q"⟩ "r" (by decide)
  simpa using h

end MultiToolAgent
